import Mathlib

/-!
Verification of the multicore CPU scheduling simulator.

This development shallowly embeds the simulator's data model and operations:
`core/process.py` (Process, Process.execute), `core/cpu.py` (CPUCore),
`core/metrics.py` (MetricsCollector.calculate_metrics, load-balance score),
`scheduler_simulator.py` (MulticoreSchedulerSimulator.run_simulation and its
helper loops), and the scheduling policies `algorithms/fcfs.py`,
`algorithms/round_robin.py`, `algorithms/load_balancing.py`, and the decision
functions of `algorithms/adaptive_scheduler.py`.

Python floats are modelled as rationals; Python object identity on processes
is modelled by a process store keyed by pid, since the simulator mutates
shared Process objects referenced from several containers.  Python dicts
keyed by int are modelled as association lists.
-/

namespace SchedSim

/-- States of a process, from `core/process.py` (`ProcessState`). -/
inductive ProcessState where
  | new
  | ready
  | running
  | waiting
  | terminated
deriving DecidableEq, Repr

/-- Process resource-usage type, from `core/process.py` (`ProcessType`). -/
inductive ProcessType where
  | cpuBound
  | ioBound
  | mixed
deriving DecidableEq, Repr

/-- A process, mirroring the fields of `Process.__init__` in `core/process.py`. -/
structure Process where
  pid : ℕ
  arrivalTime : ℚ
  burstTime : ℚ
  priority : ℤ
  processType : ProcessType
  remainingTime : ℚ
  state : ProcessState
  cpuAffinity : Option ℕ
  startTime : Option ℚ
  completionTime : Option ℚ
  lastExecutedTime : Option ℚ
  waitingTime : ℚ
  turnaroundTime : ℚ
  responseTime : ℚ
  executedOnCore : Option ℕ
  contextSwitches : ℕ
  timeQuantumUsed : ℚ
deriving DecidableEq, Repr

/-- A freshly constructed process, as built by `Process.__init__`. -/
def mkProcess (pid : ℕ) (arrivalTime burstTime : ℚ) (priority : ℤ := 0)
    (processType : ProcessType := ProcessType.mixed) (cpuAffinity : Option ℕ := none) :
    Process :=
  { pid := pid
    arrivalTime := arrivalTime
    burstTime := burstTime
    priority := priority
    processType := processType
    remainingTime := burstTime
    state := ProcessState.new
    cpuAffinity := cpuAffinity
    startTime := none
    completionTime := none
    lastExecutedTime := none
    waitingTime := 0
    turnaroundTime := 0
    responseTime := 0
    executedOnCore := none
    contextSwitches := 0
    timeQuantumUsed := 0 }

/-- `Process.is_completed` from `core/process.py`. -/
def Process.isCompleted (p : Process) : Bool :=
  p.state = ProcessState.terminated

/-- `Process.execute(time_slice, current_time, core_id)` from `core/process.py`.
Returns the actual time executed together with the updated process. -/
def Process.execute (p : Process) (timeSlice currentTime : ℚ) (coreId : ℕ) :
    ℚ × Process :=
  let p :=
    if p.state = ProcessState.new ∨ p.state = ProcessState.ready then
      let p :=
        if p.startTime = none then
          { p with startTime := some currentTime
                   responseTime := currentTime - p.arrivalTime }
        else p
      { p with state := ProcessState.running }
    else p
  let p :=
    match p.executedOnCore with
    | some c => if c ≠ coreId then { p with contextSwitches := p.contextSwitches + 1 } else p
    | none => p
  let p := { p with executedOnCore := some coreId }
  let actual := min timeSlice p.remainingTime
  let p := { p with remainingTime := p.remainingTime - actual
                    timeQuantumUsed := p.timeQuantumUsed + actual
                    lastExecutedTime := some (currentTime + actual) }
  let p :=
    if p.remainingTime ≤ 0 then
      { p with state := ProcessState.terminated
               completionTime := some (currentTime + actual)
               turnaroundTime := currentTime + actual - p.arrivalTime
               waitingTime := currentTime + actual - p.arrivalTime - p.burstTime }
    else
      { p with state := ProcessState.ready }
  (actual, p)

/-- A CPU core, mirroring `CPUCore.__init__` in `core/cpu.py`.  The current
process is stored as a pid into the process store (Python keeps an object
reference). -/
structure CPUCore where
  coreId : ℕ
  currentProcess : Option ℕ
  totalBusyTime : ℚ
  totalIdleTime : ℚ
  processesExecuted : ℕ
  lastUpdateTime : ℚ
  isBusy : Bool
  loadHistory : List ℚ
  currentLoad : ℚ
deriving DecidableEq, Repr

/-- A freshly constructed core (`CPUCore.__init__` / `CPUCore.reset`). -/
def mkCore (coreId : ℕ) : CPUCore :=
  { coreId := coreId
    currentProcess := none
    totalBusyTime := 0
    totalIdleTime := 0
    processesExecuted := 0
    lastUpdateTime := 0
    isBusy := false
    loadHistory := []
    currentLoad := 0 }

/-- `CPUCore.reset` from `core/cpu.py`. -/
def CPUCore.reset (c : CPUCore) : CPUCore :=
  mkCore c.coreId

/-- `CPUCore.is_idle` from `core/cpu.py`. -/
def CPUCore.isIdle (c : CPUCore) : Bool :=
  !c.isBusy || c.currentProcess.isNone

/-- `CPUCore._update_metrics` from `core/cpu.py`. -/
def CPUCore.updateMetrics (c : CPUCore) (currentTime : ℚ) : CPUCore :=
  let elapsed := currentTime - c.lastUpdateTime
  if c.isBusy then
    { c with totalBusyTime := c.totalBusyTime + elapsed, lastUpdateTime := currentTime }
  else
    { c with totalIdleTime := c.totalIdleTime + elapsed, lastUpdateTime := currentTime }

/-- `CPUCore.get_utilization(total_time)` from `core/cpu.py`. -/
def CPUCore.getUtilization (c : CPUCore) (totalTime : ℚ) : ℚ :=
  if totalTime = 0 then 0 else c.totalBusyTime / totalTime * 100

/-- The process store: the `all_processes` list, whose elements are looked up
and updated by pid (Python mutates the shared objects in place). -/
def getProc (store : List Process) (pid : ℕ) : Option Process :=
  store.find? (fun p => p.pid = pid)

/-- Write back a mutated process into the store, replacing the entry with the
same pid. -/
def setProc (store : List Process) (q : Process) : List Process :=
  store.map (fun p => if p.pid = q.pid then q else p)

/-- Whether the process with the given pid is completed in the store. -/
def procCompleted (store : List Process) (pid : ℕ) : Bool :=
  match getProc store pid with
  | some p => p.isCompleted
  | none => false

/-- `CPUCore.assign_process(process, current_time)` from `core/cpu.py`. -/
def CPUCore.assignProcess (c : CPUCore) (store : List Process) (pid : ℕ)
    (currentTime : ℚ) : CPUCore :=
  let c :=
    match c.currentProcess with
    | some cur => if ¬ procCompleted store cur then c.updateMetrics currentTime else c
    | none => c
  { c with currentProcess := some pid
           isBusy := true
           lastUpdateTime := currentTime
           processesExecuted := c.processesExecuted + 1 }

/-- `CPUCore.execute_current_process(time_slice, current_time)` from
`core/cpu.py`.  Returns the actual time executed (none when no process is
attached), the updated core and the updated store. -/
def CPUCore.executeCurrentProcess (c : CPUCore) (store : List Process)
    (timeSlice currentTime : ℚ) : Option ℚ × CPUCore × List Process :=
  match c.currentProcess with
  | none =>
      let elapsed := currentTime - c.lastUpdateTime
      (none,
       { c with totalIdleTime := c.totalIdleTime + elapsed, lastUpdateTime := currentTime },
       store)
  | some pid =>
      match getProc store pid with
      | none => (none, c, store)
      | some p =>
          let (actual, p') := p.execute timeSlice currentTime c.coreId
          let store' := setProc store p'
          let load := if p'.isCompleted then 0 else p'.remainingTime
          let c := { c with totalBusyTime := c.totalBusyTime + actual
                            lastUpdateTime := currentTime + actual
                            currentLoad := load
                            loadHistory := c.loadHistory ++ [load] }
          let c :=
            if p'.isCompleted then
              { c with currentProcess := none, isBusy := false }
            else c
          (some actual, c, store')

/-- `CPUCore.preempt_current_process(current_time)` from `core/cpu.py`. -/
def CPUCore.preemptCurrentProcess (c : CPUCore) (currentTime : ℚ) :
    Option ℕ × CPUCore :=
  match c.currentProcess with
  | none => (none, c)
  | some pid =>
      let c := c.updateMetrics currentTime
      (some pid,
       { c with currentProcess := none, isBusy := false, currentLoad := 0 })

/-- Lookup in an association list, modelling a Python dict `d.get(k)`
(dicts hold at most one binding per key). -/
def lookupA {β : Type} : List (ℕ × β) → ℕ → Option β
  | [], _ => none
  | kv :: l, k => if kv.1 = k then some kv.2 else lookupA l k

/-- Dict assignment `d[k] = v`: replace the existing binding or append one. -/
def setA {β : Type} : List (ℕ × β) → ℕ → β → List (ℕ × β)
  | [], k, v => [(k, v)]
  | kv :: l, k, v => if kv.1 = k then (k, v) :: l else kv :: setA l k v

/-- Dict deletion `del d[k]`. -/
def eraseA {β : Type} : List (ℕ × β) → ℕ → List (ℕ × β)
  | [], _ => []
  | kv :: l, k => if kv.1 = k then eraseA l k else kv :: eraseA l k

/-- The scheduler interface of `algorithms/base_scheduler.py`, specialised to
the operations the simulation engine invokes.  `σ` is the policy's internal
state; the process store is passed in because the Python methods read the
shared `Process` objects. -/
structure SchedulerOps (σ : Type) where
  selectProcess : σ → List Process → CPUCore → List ℕ → ℚ → Option ℕ × σ
  onProcessArrival : σ → List Process → ℕ → ℚ → σ
  onProcessCompletion : σ → List Process → ℕ → ℚ → σ
  shouldPreempt : σ → List Process → ℕ → List ℕ → ℚ → Bool
  isPreemptive : σ → Bool
  getTimeQuantum : σ → ℚ
  rotateQueue : Option (σ → List Process → ℕ → σ)
  reset : σ → σ

/-- Internal state of `RoundRobinScheduler` from `algorithms/round_robin.py`:
the FIFO rotation queue and the per-process remaining-quantum dict. -/
structure RRState where
  timeQuantum : ℚ
  rrQueue : List ℕ
  quantumRemaining : List (ℕ × ℚ)
deriving DecidableEq, Repr

/-- A fresh `RoundRobinScheduler(num_cores, time_quantum)` state. -/
def mkRRState (timeQuantum : ℚ := 4) : RRState :=
  { timeQuantum := timeQuantum, rrQueue := [], quantumRemaining := [] }

/-- `RoundRobinScheduler.select_process` from `algorithms/round_robin.py`:
first appends every ready process not yet in the rotation queue, then returns
the head of the rotation queue (which need not be in the ready queue). -/
def rrSelectProcess (s : RRState) (ready : List ℕ) : Option ℕ × RRState :=
  let s := ready.foldl
    (fun st pid =>
      if pid ∈ st.rrQueue then st
      else
        { st with rrQueue := st.rrQueue ++ [pid]
                  quantumRemaining := setA st.quantumRemaining pid st.timeQuantum })
    s
  match s.rrQueue with
  | [] => (none, s)
  | pid :: _ => (some pid, s)

/-- `RoundRobinScheduler.on_process_completion` from `algorithms/round_robin.py`. -/
def rrOnProcessCompletion (s : RRState) (pid : ℕ) : RRState :=
  let s :=
    if pid ∈ s.rrQueue then { s with rrQueue := s.rrQueue.erase pid } else s
  if (lookupA s.quantumRemaining pid).isSome then
    { s with quantumRemaining := eraseA s.quantumRemaining pid }
  else s

/-- `RoundRobinScheduler.rotate_queue` from `algorithms/round_robin.py`. -/
def rrRotateQueue (s : RRState) (store : List Process) (pid : ℕ) : RRState :=
  if pid ∈ s.rrQueue then
    let s := { s with rrQueue := s.rrQueue.erase pid }
    if ¬ procCompleted store pid then
      { s with rrQueue := s.rrQueue ++ [pid]
               quantumRemaining := setA s.quantumRemaining pid s.timeQuantum }
    else s
  else s

/-- `RoundRobinScheduler.reset` from `algorithms/round_robin.py`. -/
def rrReset (s : RRState) : RRState :=
  mkRRState s.timeQuantum

/-- The Round Robin scheduler packaged for the engine.  `should_preempt` and
`on_process_arrival` are inherited unchanged from `BaseScheduler`. -/
def rrOps : SchedulerOps RRState :=
  { selectProcess := fun s _store _core ready _t => rrSelectProcess s ready
    onProcessArrival := fun s _store _pid _t => s
    onProcessCompletion := fun s _store pid _t => rrOnProcessCompletion s pid
    shouldPreempt := fun _s _store _pid _ready _t => false
    isPreemptive := fun _s => true
    getTimeQuantum := fun s => s.timeQuantum
    rotateQueue := some (fun s store pid => rrRotateQueue s store pid)
    reset := rrReset }

/-- The sort key of `FCFSScheduler.select_process` in `algorithms/fcfs.py`:
`key=lambda p: (p.arrival_time, p.pid)` as a total preorder. -/
def fcfsKeyLE (p q : Process) : Prop :=
  p.arrivalTime < q.arrivalTime ∨ (p.arrivalTime = q.arrivalTime ∧ p.pid ≤ q.pid)

instance : DecidableRel fcfsKeyLE := fun p q => by
  unfold fcfsKeyLE; infer_instance

/-- `FCFSScheduler.select_process` from `algorithms/fcfs.py`: sorts the ready
queue in place by (arrival time, pid) and returns its head.  The returned list
is the queue after the in-place sort. -/
def fcfsSelectProcess (ready : List Process) : Option Process × List Process :=
  if ready = [] then (none, ready)
  else
    let sorted := ready.insertionSort fcfsKeyLE
    (sorted.head?, sorted)

/-- The sort key `(p.remaining_time, p.arrival_time)` used by
`LoadBalancingScheduler.select_process` in `algorithms/load_balancing.py`. -/
def lbKeyLE (p q : Process) : Prop :=
  p.remainingTime < q.remainingTime ∨
    (p.remainingTime = q.remainingTime ∧ p.arrivalTime ≤ q.arrivalTime)

instance : DecidableRel lbKeyLE := fun p q => by
  unfold lbKeyLE; infer_instance

/-- Internal state of `LoadBalancingScheduler` from
`algorithms/load_balancing.py`: the per-core load dict and the pid-to-core
assignment dict. -/
structure LBState where
  rebalanceThreshold : ℚ
  coreLoads : List (ℕ × ℚ)
  processAssignments : List (ℕ × ℕ)
deriving DecidableEq, Repr

/-- A fresh `LoadBalancingScheduler(num_cores)` state (default threshold 0.3). -/
def mkLBState (rebalanceThreshold : ℚ := 3/10) : LBState :=
  { rebalanceThreshold := rebalanceThreshold, coreLoads := [], processAssignments := [] }

/-- `LoadBalancingScheduler._try_rebalance` from `algorithms/load_balancing.py`. -/
def lbTryRebalance (s : LBState) (core : CPUCore) (ready : List Process) :
    Option Process × LBState :=
  let candidates := ready.filterMap
    (fun p =>
      match lookupA s.processAssignments p.pid with
      | none => none
      | some assignedCore =>
          let assignedLoad := (lookupA s.coreLoads assignedCore).getD 0
          let diff := assignedLoad - core.currentLoad
          if diff > s.rebalanceThreshold * assignedLoad then some (p, diff) else none)
  match (candidates.insertionSort (fun a b => a.2 ≥ b.2)).head? with
  | none => (none, s)
  | some best =>
      let stolen := best.1
      let oldCore := (lookupA s.processAssignments stolen.pid).getD 0
      (some stolen,
       { s with processAssignments := setA s.processAssignments stolen.pid core.coreId
                coreLoads :=
                  setA
                    (setA s.coreLoads oldCore
                      (max 0 ((lookupA s.coreLoads oldCore).getD 0 - stolen.remainingTime)))
                    core.coreId
                    ((lookupA (setA s.coreLoads oldCore
                        (max 0 ((lookupA s.coreLoads oldCore).getD 0 - stolen.remainingTime)))
                        core.coreId).getD 0 + stolen.remainingTime) })

/-- `LoadBalancingScheduler.select_process` from `algorithms/load_balancing.py`. -/
def lbSelectProcess (s : LBState) (core : CPUCore) (ready : List Process) :
    Option Process × LBState :=
  if ready = [] then (none, s)
  else
    let assigned :=
      ready.filter (fun p => lookupA s.processAssignments p.pid = some core.coreId)
    if assigned ≠ [] then
      ((assigned.insertionSort lbKeyLE).head?, s)
    else
      let unassigned :=
        ready.filter (fun p => (lookupA s.processAssignments p.pid).isNone)
      if unassigned ≠ [] then
        match (unassigned.insertionSort lbKeyLE).head? with
        | some sel =>
            (some sel,
             { s with processAssignments := setA s.processAssignments sel.pid core.coreId
                      coreLoads :=
                        setA s.coreLoads core.coreId
                          ((lookupA s.coreLoads core.coreId).getD 0 + sel.remainingTime) })
        | none => (none, s)
      else lbTryRebalance s core ready

/-- `LoadBalancingScheduler.on_process_completion` from
`algorithms/load_balancing.py`: subtracts the completed process's burst time
from its bound core's load (floored at 0) and deletes the assignment. -/
def lbOnProcessCompletion (s : LBState) (p : Process) : LBState :=
  match lookupA s.processAssignments p.pid with
  | none => s
  | some assignedCore =>
      { s with coreLoads :=
                 setA s.coreLoads assignedCore
                   (max 0 ((lookupA s.coreLoads assignedCore).getD 0 - p.burstTime))
               processAssignments := eraseA s.processAssignments p.pid }

/-- The sort key `(p.remaining_time, p.arrival_time, p.pid)` used by
`SJFScheduler.select_process` in `algorithms/sjf.py`. -/
def sjfKeyLE (p q : Process) : Prop :=
  p.remainingTime < q.remainingTime ∨
    (p.remainingTime = q.remainingTime ∧
      (p.arrivalTime < q.arrivalTime ∨ (p.arrivalTime = q.arrivalTime ∧ p.pid ≤ q.pid)))

instance : DecidableRel sjfKeyLE := fun p q => by
  unfold sjfKeyLE; infer_instance

/-- `SJFScheduler.select_process` from `algorithms/sjf.py`: sorts the ready
queue in place by (remaining time, arrival time, pid) and returns its head.
The returned list is the queue after the in-place sort. -/
def sjfSelectProcess (ready : List Process) : Option Process × List Process :=
  if ready = [] then (none, ready)
  else
    let sorted := ready.insertionSort sjfKeyLE
    (sorted.head?, sorted)

/-- Internal state of `PriorityScheduler` from `algorithms/priority.py`: the
configuration flags and the per-process wait-time dict used for aging. -/
structure PrioState where
  preemptive : Bool
  aging : Bool
  agingFactor : ℚ
  processWaitTimes : List (ℕ × ℚ)
deriving DecidableEq, Repr

/-- A fresh `PriorityScheduler(num_cores, preemptive, aging)` state
(aging factor 0.1). -/
def mkPrioState (preemptive aging : Bool) : PrioState :=
  { preemptive := preemptive, aging := aging, agingFactor := 1/10, processWaitTimes := [] }

/-- `PriorityScheduler._apply_aging` from `algorithms/priority.py`: records
the current time as first-seen wait start for every queued pid not yet
tracked. -/
def prioApplyAging (s : PrioState) (ready : List Process) (currentTime : ℚ) : PrioState :=
  ready.foldl
    (fun st p =>
      if (lookupA st.processWaitTimes p.pid).isNone then
        { st with processWaitTimes := setA st.processWaitTimes p.pid currentTime }
      else st)
    s

/-- The value `PriorityScheduler._get_effective_priority` computes for a
process.  The `getD p.arrivalTime` default mirrors the method's
insert-if-missing of `process.arrival_time`; inside `select_process` the
default never fires because `_apply_aging` has already inserted every queued
pid, so the sort key mutates nothing there. -/
def prioKey (s : PrioState) (currentTime : ℚ) (p : Process) : ℚ :=
  if s.aging then
    max 0 ((p.priority : ℚ)
      - (currentTime - (lookupA s.processWaitTimes p.pid).getD p.arrivalTime) * s.agingFactor)
  else (p.priority : ℚ)

/-- The sort key `(effective_priority, p.arrival_time, p.pid)` used by
`PriorityScheduler.select_process` in `algorithms/priority.py`. -/
def prioKeyLE (s : PrioState) (currentTime : ℚ) (p q : Process) : Prop :=
  prioKey s currentTime p < prioKey s currentTime q ∨
    (prioKey s currentTime p = prioKey s currentTime q ∧
      (p.arrivalTime < q.arrivalTime ∨ (p.arrivalTime = q.arrivalTime ∧ p.pid ≤ q.pid)))

instance (s : PrioState) (t : ℚ) : DecidableRel (prioKeyLE s t) := fun p q => by
  unfold prioKeyLE; infer_instance

/-- `PriorityScheduler.select_process` from `algorithms/priority.py`: applies
aging when enabled, sorts the ready queue in place by effective priority and
returns its head together with the sorted queue and the updated wait-time
state. -/
def prioSelectProcess (s : PrioState) (ready : List Process) (currentTime : ℚ) :
    Option Process × List Process × PrioState :=
  if ready = [] then (none, ready, s)
  else
    let s := if s.aging then prioApplyAging s ready currentTime else s
    let sorted := ready.insertionSort (prioKeyLE s currentTime)
    (sorted.head?, sorted, s)

/-- `SystemState` from `algorithms/adaptive_scheduler.py`. -/
inductive SystemState where
  | lowLoad
  | mediumLoad
  | highLoad
deriving DecidableEq, Repr

/-- `WorkloadCharacteristic` from `algorithms/adaptive_scheduler.py`. -/
inductive WorkloadCharacteristic where
  | cpuIntensive
  | ioIntensive
  | mixed
  | shortJobs
  | longJobs
deriving DecidableEq, Repr

/-- The six concrete policy names the adaptive scheduler chooses between. -/
inductive AlgorithmName where
  | fcfs
  | sjf
  | roundRobin
  | priority
  | loadBalancing
  | workStealing
deriving DecidableEq, Repr

/-- `AdaptiveScheduler._analyze_system_state` from
`algorithms/adaptive_scheduler.py`. -/
def analyzeSystemState (numCores : ℕ) (ready : List Process) : SystemState :=
  let loadFrac : ℚ := (ready.length : ℚ) / (numCores : ℚ)
  if loadFrac < 1 then SystemState.lowLoad
  else if loadFrac < 3 then SystemState.mediumLoad
  else SystemState.highLoad

/-- `AdaptiveScheduler._analyze_workload` from
`algorithms/adaptive_scheduler.py`. -/
def analyzeWorkload (ready : List Process) : WorkloadCharacteristic :=
  if ready = [] then WorkloadCharacteristic.mixed
  else
    let cpuCount : ℕ := (ready.filter (fun p => p.processType = ProcessType.cpuBound)).length
    let ioCount : ℕ := (ready.filter (fun p => p.processType = ProcessType.ioBound)).length
    let cpuFrac : ℚ := (cpuCount : ℚ) / (ready.length : ℚ)
    let ioFrac : ℚ := (ioCount : ℚ) / (ready.length : ℚ)
    let avgBurst : ℚ := (ready.map Process.remainingTime).sum / (ready.length : ℚ)
    if cpuFrac > 3/5 then WorkloadCharacteristic.cpuIntensive
    else if ioFrac > 3/5 then WorkloadCharacteristic.ioIntensive
    else if avgBurst < 10 then WorkloadCharacteristic.shortJobs
    else if avgBurst > 50 then WorkloadCharacteristic.longJobs
    else WorkloadCharacteristic.mixed

/-- `AdaptiveScheduler._select_best_algorithm` from
`algorithms/adaptive_scheduler.py`. -/
def selectBestAlgorithm (systemState : SystemState) (workload : WorkloadCharacteristic) :
    AlgorithmName :=
  match systemState with
  | SystemState.highLoad =>
      if workload = WorkloadCharacteristic.cpuIntensive then AlgorithmName.loadBalancing
      else if workload = WorkloadCharacteristic.longJobs then AlgorithmName.roundRobin
      else AlgorithmName.loadBalancing
  | SystemState.mediumLoad =>
      if workload = WorkloadCharacteristic.shortJobs then AlgorithmName.sjf
      else if workload = WorkloadCharacteristic.ioIntensive then AlgorithmName.priority
      else AlgorithmName.workStealing
  | SystemState.lowLoad =>
      if workload = WorkloadCharacteristic.shortJobs then AlgorithmName.sjf
      else if workload = WorkloadCharacteristic.mixed then AlgorithmName.workStealing
      else AlgorithmName.fcfs

/-- Modelled from the claim's words: system load is LOW if
queueLength/numCores < 1.0, MEDIUM if < 3.0, else HIGH. -/
def claimSystemLoad (numCores queueLength : ℕ) : SystemState :=
  if (queueLength : ℚ) / (numCores : ℚ) < 1 then SystemState.lowLoad
  else if (queueLength : ℚ) / (numCores : ℚ) < 3 then SystemState.mediumLoad
  else SystemState.highLoad

/-- Modelled from the claim's words: CPU_INTENSIVE if more than 60% of queued
processes are CPU-bound, else IO_INTENSIVE if more than 60% are IO-bound, else
SHORT_JOBS if average remaining time < 10.0, else LONG_JOBS if average
remaining time > 50.0, else MIXED (also MIXED for an empty queue). -/
def claimWorkload (ready : List Process) : WorkloadCharacteristic :=
  if ready = [] then WorkloadCharacteristic.mixed
  else
    let cpuPct : ℚ :=
      100 * ((ready.filter (fun p => p.processType = ProcessType.cpuBound)).length : ℚ)
        / (ready.length : ℚ)
    let ioPct : ℚ :=
      100 * ((ready.filter (fun p => p.processType = ProcessType.ioBound)).length : ℚ)
        / (ready.length : ℚ)
    let avgRem : ℚ := (ready.map Process.remainingTime).sum / (ready.length : ℚ)
    if cpuPct > 60 then WorkloadCharacteristic.cpuIntensive
    else if ioPct > 60 then WorkloadCharacteristic.ioIntensive
    else if avgRem < 10 then WorkloadCharacteristic.shortJobs
    else if avgRem > 50 then WorkloadCharacteristic.longJobs
    else WorkloadCharacteristic.mixed

/-- Modelled from the claim's words: the fixed decision table.  HIGH load
selects Load Balancing except LONG_JOBS selects Round Robin; MEDIUM load
selects SJF for SHORT_JOBS, Priority for IO_INTENSIVE, else Work Stealing;
LOW load selects SJF for SHORT_JOBS, Work Stealing for MIXED, else FCFS. -/
def claimPolicyTable (systemState : SystemState) (workload : WorkloadCharacteristic) :
    AlgorithmName :=
  match systemState with
  | SystemState.highLoad =>
      if workload = WorkloadCharacteristic.longJobs then AlgorithmName.roundRobin
      else AlgorithmName.loadBalancing
  | SystemState.mediumLoad =>
      if workload = WorkloadCharacteristic.shortJobs then AlgorithmName.sjf
      else if workload = WorkloadCharacteristic.ioIntensive then AlgorithmName.priority
      else AlgorithmName.workStealing
  | SystemState.lowLoad =>
      if workload = WorkloadCharacteristic.shortJobs then AlgorithmName.sjf
      else if workload = WorkloadCharacteristic.mixed then AlgorithmName.workStealing
      else AlgorithmName.fcfs

/-- The per-core utilization list built by `MetricsCollector.calculate_metrics`
in `core/metrics.py`: `[core.get_utilization(total_time) for core in cores]`. -/
def coreUtilizations (cores : List CPUCore) (totalTime : ℚ) : List ℚ :=
  cores.map (fun c => c.getUtilization totalTime)

/-- The sample variance underlying `statistics.stdev` (divides by n - 1). -/
def sampleVariance (xs : List ℚ) : ℚ :=
  let m := xs.sum / (xs.length : ℚ)
  ((xs.map (fun x => (x - m) ^ 2)).sum) / ((xs.length : ℚ) - 1)

/-- `s` is the value `statistics.stdev(xs)` computes: the nonnegative square
root of the sample variance.  The square root itself is characterised rather
than computed so the development stays executable on rationals. -/
def IsSampleStdDev (xs : List ℚ) (s : ℝ) : Prop :=
  0 ≤ s ∧ s ^ 2 = ((sampleVariance xs : ℚ) : ℝ)

/-- The load-balance score computed at lines 105-112 of `core/metrics.py`:
with more than one core it is `max(0.0, 1.0 - stdev(core_utilizations)/100.0)`,
otherwise `1.0`. -/
def loadBalanceScoreRel (cores : List CPUCore) (totalTime : ℚ) (score : ℝ) : Prop :=
  if 1 < (coreUtilizations cores totalTime).length then
    ∃ s, IsSampleStdDev (coreUtilizations cores totalTime) s ∧
      score = max 0 (1 - s / 100)
  else score = 1

/-- Modelled from the claim's words: 1 minus the coefficient of variation
(standard deviation divided by mean) of the per-core utilizations, clamped to
[0,1], and 1.0 when there is only one core or the utilizations have zero
variance. -/
def claimLoadBalanceScoreRel (cores : List CPUCore) (totalTime : ℚ) (score : ℝ) : Prop :=
  let utils := coreUtilizations cores totalTime
  if utils.length ≤ 1 ∨ sampleVariance utils = 0 then score = 1
  else
    ∃ s, IsSampleStdDev utils s ∧
      score = max 0 (min 1 (1 - s / ((utils.sum / (utils.length : ℚ) : ℚ) : ℝ)))

/-- The load-balance score of the full `PerformanceMetrics` snapshot built by
`MetricsCollector.calculate_metrics`: when no process has completed the early
return at lines 77-90 of `core/metrics.py` sets the score to 0.0. -/
def metricsLoadBalanceScoreRel (processes : List Process) (cores : List CPUCore)
    (totalTime : ℚ) (score : ℝ) : Prop :=
  if processes.filter Process.isCompleted = [] then score = 0
  else loadBalanceScoreRel cores totalTime score

/-- The mutable state driven by `MulticoreSchedulerSimulator.run_simulation`
in `scheduler_simulator.py`: the cores, the process store (`all_processes`),
the ready queue and completed list (as pid lists, since Python stores shared
object references), the scheduler's internal state, the clock and the
context-switch counter. -/
structure EngineState (σ : Type) where
  cores : List CPUCore
  allProcesses : List Process
  ready : List ℕ
  completed : List ℕ
  sched : σ
  time : ℚ
  ctxSwitches : ℕ
deriving Repr

/-- The arrival-admission loop at lines 169-177 of `scheduler_simulator.py`:
while the next unadmitted process has arrived, mark it READY, append it to the
ready queue and notify the scheduler.  `n` bounds the number of iterations
(called with the process count, which the loop never exceeds). -/
def admitLoop (ops : SchedulerOps σ) : ℕ → EngineState σ → ℕ → EngineState σ × ℕ
  | 0, st, idx => (st, idx)
  | n + 1, st, idx =>
      match st.allProcesses.get? idx with
      | none => (st, idx)
      | some p =>
          if p.arrivalTime ≤ st.time then
            let procs := setProc st.allProcesses { p with state := ProcessState.ready }
            let st := { st with allProcesses := procs
                                ready := st.ready ++ [p.pid]
                                sched := ops.onProcessArrival st.sched procs p.pid st.time }
            admitLoop ops n st (idx + 1)
          else (st, idx)

/-- `MulticoreSchedulerSimulator._assign_processes_to_cores` from
`scheduler_simulator.py`: for each core in order, if it is idle and the ready
queue is nonempty, ask the scheduler for a selection; remove the selection
from the ready queue if it is present there, assign it to the core and count a
context switch. -/
def assignProcessesToCores (ops : SchedulerOps σ) (st : EngineState σ) : EngineState σ :=
  (List.range st.cores.length).foldl
    (fun st i =>
      match st.cores.get? i with
      | none => st
      | some core =>
          if core.isIdle ∧ st.ready ≠ [] then
            let sel := ops.selectProcess st.sched st.allProcesses core st.ready st.time
            let st := { st with sched := sel.2 }
            match sel.1 with
            | none => st
            | some pid =>
                let ready := if pid ∈ st.ready then st.ready.erase pid else st.ready
                { st with ready := ready
                          cores := st.cores.set i (core.assignProcess st.allProcesses pid st.time)
                          ctxSwitches := st.ctxSwitches + 1 }
          else st)
    st

/-- `MulticoreSchedulerSimulator._execute_all_cores` from
`scheduler_simulator.py`.  Returns the updated state and the minimum actual
execution time across cores (0 when no core executed, modelling the
`float('inf')` sentinel). -/
def executeAllCores (ops : SchedulerOps σ) (st : EngineState σ) : EngineState σ × ℚ :=
  let quantum := ops.getTimeQuantum st.sched
  let out :=
    (List.range st.cores.length).foldl
      (fun (acc : EngineState σ × Option ℚ) i =>
        let st := acc.1
        let minSlice := acc.2
        match st.cores.get? i with
        | none => acc
        | some core =>
            if core.isIdle then acc
            else
              match core.currentProcess with
              | none => acc
              | some curPid =>
                  if ops.shouldPreempt st.sched st.allProcesses curPid st.ready st.time then
                    let pre := core.preemptCurrentProcess st.time
                    let st := { st with cores := st.cores.set i pre.2 }
                    let st :=
                      match pre.1 with
                      | some pid =>
                          if ¬ procCompleted st.allProcesses pid then
                            { st with ready := st.ready ++ [pid] }
                          else st
                      | none => st
                    (st, minSlice)
                  else
                    let exec := core.executeCurrentProcess st.allProcesses quantum st.time
                    let st := { st with cores := st.cores.set i exec.2.1
                                        allProcesses := exec.2.2 }
                    match exec.1 with
                    | none => (st, minSlice)
                    | some actual =>
                        let minSlice :=
                          some (match minSlice with
                                | none => actual
                                | some m => min m actual)
                        if procCompleted st.allProcesses curPid then
                          let st :=
                            { st with
                                completed := st.completed ++ [curPid]
                                sched := ops.onProcessCompletion st.sched st.allProcesses
                                           curPid (st.time + actual) }
                          (st, minSlice)
                        else if ops.isPreemptive st.sched then
                          match st.cores.get? i with
                          | none => (st, minSlice)
                          | some coreNow =>
                              let pre := coreNow.preemptCurrentProcess (st.time + actual)
                              let st := { st with cores := st.cores.set i pre.2 }
                              match pre.1 with
                              | some pid =>
                                  let st := { st with ready := st.ready ++ [pid] }
                                  let st :=
                                    match ops.rotateQueue with
                                    | some rot =>
                                        { st with sched := rot st.sched st.allProcesses pid }
                                    | none => st
                                  (st, minSlice)
                              | none => (st, minSlice)
                        else (st, minSlice))
      (st, (none : Option ℚ))
  (out.1, match out.2 with | none => 0 | some m => m)

/-- The main loop of `run_simulation` (lines 159-193 of
`scheduler_simulator.py`), with explicit fuel; `none` means the fuel ran out
before the loop terminated. -/
def simLoop (ops : SchedulerOps σ) :
    ℕ → Option ℚ → EngineState σ → ℕ → Option (EngineState σ)
  | 0, _, _, _ => none
  | fuel + 1, maxTime, st, idx =>
      if (match maxTime with | some m => decide (m ≤ st.time) | none => false) then some st
      else if st.allProcesses.length ≤ st.completed.length then some st
      else
        let adm := admitLoop ops st.allProcesses.length st idx
        let st := assignProcessesToCores ops adm.1
        let ex := executeAllCores ops st
        let st := ex.1
        if 0 < ex.2 then
          simLoop ops fuel maxTime { st with time := st.time + ex.2 } adm.2
        else
          match st.allProcesses.get? adm.2 with
          | some p => simLoop ops fuel maxTime { st with time := p.arrivalTime } adm.2
          | none => some st

/-- The simulator object of `MulticoreSchedulerSimulator.__init__`:
`scheduler = none` models a simulator on which `set_scheduler` was never
called. -/
structure Simulator (σ : Type) where
  numCores : ℕ
  cores : List CPUCore
  allProcesses : List Process
  scheduler : Option σ
deriving Repr

/-- The per-process reset performed by
`MulticoreSchedulerSimulator._reset_simulation` (it deliberately leaves
`executed_on_core`, `context_switches`, `time_quantum_used` and
`last_executed_time` untouched). -/
def resetProcess (p : Process) : Process :=
  { p with state := ProcessState.new
           remainingTime := p.burstTime
           startTime := none
           completionTime := none
           waitingTime := 0
           turnaroundTime := 0
           responseTime := 0 }

/-- The stable sort `self.all_processes.sort(key=lambda p: p.arrival_time)`. -/
def sortByArrival (procs : List Process) : List Process :=
  procs.insertionSort (fun p q => p.arrivalTime ≤ q.arrivalTime)

/-- `MulticoreSchedulerSimulator.run_simulation(max_time)` from
`scheduler_simulator.py`.  The configuration guards run before any state is
touched; only after both pass is the state reset and the loop entered.
`Except.error` is the raised `ValueError`; `Except.ok none` means the fuel was
exhausted; `Except.ok (some st)` is a normally terminated run. -/
def runSimulation (ops : SchedulerOps σ) (fuel : ℕ) (sim : Simulator σ)
    (maxTime : Option ℚ) : Except String (Option (EngineState σ)) :=
  match sim.scheduler with
  | none => Except.error "No scheduler set. Use set_scheduler() first."
  | some schedSt =>
      if sim.allProcesses = [] then
        Except.error
          "No processes to simulate. Use generate_processes() or add_process() first."
      else
        let st : EngineState σ :=
          { cores := sim.cores.map CPUCore.reset
            allProcesses := sortByArrival (sim.allProcesses.map resetProcess)
            ready := []
            completed := []
            sched := ops.reset schedSt
            time := 0
            ctxSwitches := 0 }
        Except.ok (simLoop ops fuel maxTime st 0)

/-- Whether a run terminated normally (neither a configuration error nor fuel
exhaustion). -/
def runTerminated {σ : Type} (r : Except String (Option (EngineState σ))) : Bool :=
  match r with
  | Except.ok (some _) => true
  | _ => false

/-- The completed-process list of a normally terminated run. -/
def runCompleted {σ : Type} (r : Except String (Option (EngineState σ))) : List ℕ :=
  match r with
  | Except.ok (some st) => st.completed
  | _ => []

/-- The final process store of a normally terminated run. -/
def runProcs {σ : Type} (r : Except String (Option (EngineState σ))) : List Process :=
  match r with
  | Except.ok (some st) => st.allProcesses
  | _ => []

/-- The final cores of a normally terminated run. -/
def runCores {σ : Type} (r : Except String (Option (EngineState σ))) : List CPUCore :=
  match r with
  | Except.ok (some st) => st.cores
  | _ => []

/-- The final simulated time of a normally terminated run. -/
def runTime {σ : Type} (r : Except String (Option (EngineState σ))) : ℚ :=
  match r with
  | Except.ok (some st) => st.time
  | _ => 0

/-- The final waiting time recorded for a pid after a run. -/
def runWaiting {σ : Type} (r : Except String (Option (EngineState σ))) (pid : ℕ) : ℚ :=
  match getProc (runProcs r) pid with
  | some p => p.waitingTime
  | none => 0

/-- A two-core simulator running Round Robin (quantum 4, the adaptive
default) on three processes that all arrive at time 0 with burst time 3. -/
def rrSim : Simulator RRState :=
  { numCores := 2
    cores := [mkCore 0, mkCore 1]
    allProcesses := [mkProcess 0 0 3, mkProcess 1 0 3, mkProcess 2 0 3]
    scheduler := some (mkRRState 4) }

/-- The unbounded run (`max_time=None`) of `rrSim`; ten fuel steps are more
than the loop needs. -/
def rrRun : Except String (Option (EngineState RRState)) :=
  runSimulation rrOps 10 rrSim none

/-- The same simulator run with `max_time=0.0`, which terminates immediately
with no completed process. -/
def rrRunBounded : Except String (Option (EngineState RRState)) :=
  runSimulation rrOps 10 rrSim (some 0)

set_option maxHeartbeats 1000000 in
/-- C1: for every process in state NEW or READY, `Process.execute(timeSlice,
currentTime, coreId)` returns exactly min(timeSlice, remainingTime) and
decreases the remaining time by that amount; when the start time is not yet
set it records startTime = currentTime and responseTime = currentTime minus
the arrival time; afterwards, if the remaining time reached zero the process
is TERMINATED with completionTime = currentTime + returned actual time,
otherwise its state is READY. -/
theorem process_execute_contract (p : Process) (timeSlice currentTime : ℚ) (coreId : ℕ)
    (h : p.state = ProcessState.new ∨ p.state = ProcessState.ready) :
    (p.execute timeSlice currentTime coreId).1 = min timeSlice p.remainingTime ∧
    (p.execute timeSlice currentTime coreId).2.remainingTime
      = p.remainingTime - (p.execute timeSlice currentTime coreId).1 ∧
    (p.startTime = none →
      (p.execute timeSlice currentTime coreId).2.startTime = some currentTime ∧
      (p.execute timeSlice currentTime coreId).2.responseTime
        = currentTime - p.arrivalTime) ∧
    ((p.execute timeSlice currentTime coreId).2.remainingTime = 0 →
      (p.execute timeSlice currentTime coreId).2.state = ProcessState.terminated ∧
      (p.execute timeSlice currentTime coreId).2.completionTime
        = some (currentTime + (p.execute timeSlice currentTime coreId).1)) ∧
    ((p.execute timeSlice currentTime coreId).2.remainingTime ≠ 0 →
      (p.execute timeSlice currentTime coreId).2.state = ProcessState.ready) := by
  rcases le_total p.remainingTime timeSlice with hle | hle
  · rcases h with h | h <;>
      cases hst : p.startTime <;>
        cases hec : p.executedOnCore <;>
          simp [Process.execute, h, hst, hec, hle, min_eq_right hle, apply_ite]
  · have hmin : min timeSlice p.remainingTime = timeSlice := min_eq_left hle
    rcases lt_or_eq_of_le hle with hlt | heq
    · have hne : p.remainingTime - timeSlice ≠ 0 := sub_ne_zero.mpr (ne_of_gt hlt)
      rcases h with h | h <;>
        cases hst : p.startTime <;>
          cases hec : p.executedOnCore <;>
            simp [Process.execute, h, hst, hec, hmin, not_le.mpr hlt, hne, apply_ite]
    · rcases h with h | h <;>
        cases hst : p.startTime <;>
          cases hec : p.executedOnCore <;>
            simp [Process.execute, h, hst, hec, hmin, heq, apply_ite]

/-- Witness for C1: a fresh process with burst 3, executed with time slice 4
at time 5 on core 1. -/
theorem process_execute_contract_witness :
    ((mkProcess 0 0 3).state = ProcessState.new ∨
      (mkProcess 0 0 3).state = ProcessState.ready) ∧
    (((mkProcess 0 0 3).execute 4 5 1).1 = min 4 (mkProcess 0 0 3).remainingTime ∧
    ((mkProcess 0 0 3).execute 4 5 1).2.remainingTime
      = (mkProcess 0 0 3).remainingTime - ((mkProcess 0 0 3).execute 4 5 1).1 ∧
    ((mkProcess 0 0 3).startTime = none →
      ((mkProcess 0 0 3).execute 4 5 1).2.startTime = some 5 ∧
      ((mkProcess 0 0 3).execute 4 5 1).2.responseTime
        = 5 - (mkProcess 0 0 3).arrivalTime) ∧
    (((mkProcess 0 0 3).execute 4 5 1).2.remainingTime = 0 →
      ((mkProcess 0 0 3).execute 4 5 1).2.state = ProcessState.terminated ∧
      ((mkProcess 0 0 3).execute 4 5 1).2.completionTime
        = some (5 + ((mkProcess 0 0 3).execute 4 5 1).1)) ∧
    (((mkProcess 0 0 3).execute 4 5 1).2.remainingTime ≠ 0 →
      ((mkProcess 0 0 3).execute 4 5 1).2.state = ProcessState.ready)) :=
  ⟨Or.inl rfl, process_execute_contract (mkProcess 0 0 3) 4 5 1 (Or.inl rfl)⟩

/-- C10: calling `Process.execute` on a process that is already TERMINATED
with remaining time zero (and a nonnegative time slice) returns 0, leaves the
remaining time at zero and the state TERMINATED, but overwrites the
completion time with the call's currentTime and recomputes the turnaround and
waiting times from that new value. -/
theorem execute_terminated_overwrites (p : Process) (timeSlice currentTime : ℚ) (coreId : ℕ)
    (hstate : p.state = ProcessState.terminated) (hrem : p.remainingTime = 0)
    (hts : 0 ≤ timeSlice) :
    (p.execute timeSlice currentTime coreId).1 = 0 ∧
    (p.execute timeSlice currentTime coreId).2.remainingTime = 0 ∧
    (p.execute timeSlice currentTime coreId).2.state = ProcessState.terminated ∧
    (p.execute timeSlice currentTime coreId).2.completionTime = some currentTime ∧
    (p.execute timeSlice currentTime coreId).2.turnaroundTime
      = currentTime - p.arrivalTime ∧
    (p.execute timeSlice currentTime coreId).2.waitingTime
      = currentTime - p.arrivalTime - p.burstTime := by
  cases hec : p.executedOnCore <;>
    simp [Process.execute, hstate, hrem, hec, min_eq_right hts, apply_ite]

/-- A process that has already run to completion (arrival 1, burst 3,
completed at time 4), used to witness C10. -/
def donePr : Process :=
  { mkProcess 7 1 3 with
      state := ProcessState.terminated
      remainingTime := 0
      startTime := some 1
      completionTime := some 4
      turnaroundTime := 3
      waitingTime := 0 }

/-- Witness for C10: re-executing `donePr` at time 9 overwrites its recorded
completion metrics. -/
theorem execute_terminated_overwrites_witness :
    (donePr.state = ProcessState.terminated ∧ donePr.remainingTime = 0 ∧ (0:ℚ) ≤ 2) ∧
    ((donePr.execute 2 9 0).1 = 0 ∧
    (donePr.execute 2 9 0).2.remainingTime = 0 ∧
    (donePr.execute 2 9 0).2.state = ProcessState.terminated ∧
    (donePr.execute 2 9 0).2.completionTime = some 9 ∧
    (donePr.execute 2 9 0).2.turnaroundTime = 9 - donePr.arrivalTime ∧
    (donePr.execute 2 9 0).2.waitingTime = 9 - donePr.arrivalTime - donePr.burstTime) :=
  ⟨⟨rfl, rfl, by norm_num⟩,
    execute_terminated_overwrites donePr 2 9 0 rfl rfl (by norm_num)⟩

section ConcreteRuns

attribute [local semireducible] Rat.sub Rat.add Rat.mul Rat.inv

/-- C2: evaluation of the code at the failing input.  Running the simulator
(Round Robin, quantum 4, two cores) on three processes that all arrive at
time 0 with burst 3 and `max_time=None` terminates with the completed list
`[P0, P0]`: process 0 is recorded as completed twice (`rr_queue[0]` is
returned for the second idle core while process 0 is already running on the
first), and only 2 of the 3 submitted processes ever complete, contradicting
both the no-duplicates and the completed-equals-submitted parts of the
conservation property. -/
theorem rr_run_duplicate_completion :
    runTerminated rrRun = true ∧
    runCompleted rrRun = [0, 0] ∧
    ¬ (runCompleted rrRun).Nodup ∧
    (runProcs rrRun).length = 3 ∧
    (runCompleted rrRun).length ≠ (runProcs rrRun).length := by
  decide

/-- C3: evaluation of the code at the failing input.  In the same Round Robin
run, process 0 is re-executed after termination, which overwrites its
completion time with the current clock (0) and recomputes
waitingTime = turnaround - burst = -3, so a completed process ends the run
with a negative waiting time. -/
theorem rr_run_negative_waiting :
    runTerminated rrRun = true ∧
    0 ∈ runCompleted rrRun ∧
    runWaiting rrRun 0 = -3 ∧
    ¬ (0 ≤ runWaiting rrRun 0) := by
  decide

/-- Counterexample for C8: at the scheduler state reached in the `rrSim` run
right after core 0's selection (rotation queue [0,1,2], process 0 removed
from the ready queue and running on core 0), `RoundRobinScheduler.
select_process` called for the next idle core with ready queue [1, 2] returns
process 0, which is not an element of the ready queue. -/
theorem rr_select_not_member_counterexample :
    (rrSelectProcess
        { mkRRState 4 with
            rrQueue := [0, 1, 2]
            quantumRemaining := [(0, 4), (1, 4), (2, 4)] }
        [1, 2]).1 = some 0 ∧
    (0 : ℕ) ∉ [1, 2] := by
  decide

end ConcreteRuns

/-- C7: `run_simulation` fails with a descriptive error exactly when no
scheduler has been set or the submitted process list is empty; the two guards
run before the state reset and the main loop, so a failing call returns the
error without producing (or mutating) any engine state — `runSimulation` is a
pure function whose error branches are taken before `_reset_simulation`. -/
theorem run_simulation_error_iff {σ : Type} (ops : SchedulerOps σ) (fuel : ℕ)
    (sim : Simulator σ) (maxTime : Option ℚ) :
    ((∃ e, runSimulation ops fuel sim maxTime = Except.error e) ↔
      (sim.scheduler = none ∨ sim.allProcesses = [])) ∧
    (sim.scheduler = none →
      runSimulation ops fuel sim maxTime
        = Except.error "No scheduler set. Use set_scheduler() first.") ∧
    (sim.scheduler ≠ none → sim.allProcesses = [] →
      runSimulation ops fuel sim maxTime
        = Except.error
            "No processes to simulate. Use generate_processes() or add_process() first.") := by
  cases hs : sim.scheduler with
  | none => simp [runSimulation, hs]
  | some schedSt =>
      by_cases hp : sim.allProcesses = [] <;> simp [runSimulation, hs, hp]

/-- The `rrSim` simulator with no scheduler bound. -/
def noSchedSim : Simulator RRState := { rrSim with scheduler := none }

/-- Witness for C7: a simulator without a scheduler fails with the
no-scheduler error. -/
theorem run_simulation_error_iff_witness :
    runSimulation rrOps 10 noSchedSim none
      = Except.error "No scheduler set. Use set_scheduler() first." :=
  (run_simulation_error_iff rrOps 10 noSchedSim none).2.1 rfl

/-- The head of a sorted list is an element of the original list. -/
theorem head_insertionSort_mem {α : Type} (r : α → α → Prop) [DecidableRel r]
    (l : List α) (a : α) (h : (l.insertionSort r).head? = some a) : a ∈ l :=
  (List.perm_insertionSort r l).mem_iff.mp (List.mem_of_mem_head? h)

/-- Sorting yields the empty list exactly for the empty list. -/
theorem insertionSort_eq_nil_iff {α : Type} (r : α → α → Prop) [DecidableRel r]
    (l : List α) : l.insertionSort r = [] ↔ l = [] := by
  constructor
  · intro h
    exact List.Perm.eq_nil ((h ▸ List.perm_insertionSort r l).symm)
  · intro h
    rw [h]
    rfl

/-- A process stolen by `LoadBalancingScheduler._try_rebalance` comes from
the ready queue: the candidate list is filtered out of it. -/
theorem lb_rebalance_mem (s : LBState) (core : CPUCore) (ready : List Process)
    (p : Process) (h : (lbTryRebalance s core ready).1 = some p) : p ∈ ready := by
  simp only [lbTryRebalance] at h
  split at h
  · simp at h
  · rename_i best heq
    simp only at h
    obtain rfl : best.1 = p := by exact Option.some.inj h
    have hmem : best ∈ ready.filterMap
        (fun q =>
          match lookupA s.processAssignments q.pid with
          | none => none
          | some assignedCore =>
              let assignedLoad := (lookupA s.coreLoads assignedCore).getD 0
              let diff := assignedLoad - core.currentLoad
              if diff > s.rebalanceThreshold * assignedLoad then some (q, diff) else none) :=
      head_insertionSort_mem _ _ _ heq
    obtain ⟨a, ha, hfa⟩ := List.mem_filterMap.mp hmem
    split at hfa
    · simp at hfa
    · dsimp only at hfa
      split at hfa
      · obtain rfl : a = best.1 := by
          have := Option.some.inj hfa
          rw [← this]
        exact ha
      · simp at hfa

/-- `LoadBalancingScheduler.select_process` only ever returns a member of the
ready queue: all three branches (assigned to this core, unassigned, stolen by
rebalancing) select from lists filtered out of it, and the method sorts
filtered copies without mutating the ready queue itself. -/
theorem lb_select_mem (s : LBState) (core : CPUCore) (ready : List Process)
    (p : Process) (h : (lbSelectProcess s core ready).1 = some p) : p ∈ ready := by
  simp only [lbSelectProcess] at h
  by_cases he : ready = []
  · rw [if_pos he] at h
    simp at h
  · rw [if_neg he] at h
    by_cases ha :
        ready.filter (fun q => lookupA s.processAssignments q.pid = some core.coreId) ≠ []
    · rw [if_pos ha] at h
      simp only at h
      exact List.mem_of_mem_filter (head_insertionSort_mem _ _ _ h)
    · rw [if_neg ha] at h
      by_cases hu : ready.filter (fun q => (lookupA s.processAssignments q.pid).isNone) ≠ []
      · rw [if_pos hu] at h
        split at h
        · rename_i sel heq
          simp only at h
          obtain rfl : sel = p := Option.some.inj h
          exact List.mem_of_mem_filter (head_insertionSort_mem _ _ _ heq)
        · simp at h
      · rw [if_neg hu] at h
        exact lb_rebalance_mem s core ready p h

/-- C8 (amended): for the FCFS, SJF, Priority and Load Balancing policies,
`select_process` returns either none or an element of the ready queue, and
the ready queue afterwards contains exactly the same processes: the three
sort-based policies return a permutation produced by the in-place sort
(and return none exactly on an empty queue), while Load Balancing sorts
filtered copies and never mutates the queue.  The universal claim over every
policy fails for Round Robin (and for Adaptive while delegating to it): see
the counterexample. -/
theorem select_preserves_queue :
    (∀ ready : List Process,
      ((fcfsSelectProcess ready).1 = none ↔ ready = []) ∧
      (∀ p, (fcfsSelectProcess ready).1 = some p → p ∈ ready) ∧
      List.Perm (fcfsSelectProcess ready).2 ready) ∧
    (∀ ready : List Process,
      ((sjfSelectProcess ready).1 = none ↔ ready = []) ∧
      (∀ p, (sjfSelectProcess ready).1 = some p → p ∈ ready) ∧
      List.Perm (sjfSelectProcess ready).2 ready) ∧
    (∀ (s : PrioState) (ready : List Process) (currentTime : ℚ),
      ((prioSelectProcess s ready currentTime).1 = none ↔ ready = []) ∧
      (∀ p, (prioSelectProcess s ready currentTime).1 = some p → p ∈ ready) ∧
      List.Perm (prioSelectProcess s ready currentTime).2.1 ready) ∧
    (∀ (s : LBState) (core : CPUCore) (ready : List Process) (p : Process),
      (lbSelectProcess s core ready).1 = some p → p ∈ ready) := by
  refine ⟨?_, ?_, ?_, lb_select_mem⟩
  · intro ready
    by_cases h : ready = []
    · simp [fcfsSelectProcess, h]
    · refine ⟨?_, ?_, ?_⟩
      · simp only [fcfsSelectProcess, if_neg h]
        rw [List.head?_eq_none_iff, insertionSort_eq_nil_iff]
      · intro p hp
        simp only [fcfsSelectProcess, if_neg h] at hp
        exact head_insertionSort_mem _ _ _ hp
      · simp only [fcfsSelectProcess, if_neg h]
        exact List.perm_insertionSort _ _
  · intro ready
    by_cases h : ready = []
    · simp [sjfSelectProcess, h]
    · refine ⟨?_, ?_, ?_⟩
      · simp only [sjfSelectProcess, if_neg h]
        rw [List.head?_eq_none_iff, insertionSort_eq_nil_iff]
      · intro p hp
        simp only [sjfSelectProcess, if_neg h] at hp
        exact head_insertionSort_mem _ _ _ hp
      · simp only [sjfSelectProcess, if_neg h]
        exact List.perm_insertionSort _ _
  · intro s ready currentTime
    by_cases h : ready = []
    · simp [prioSelectProcess, h]
    · refine ⟨?_, ?_, ?_⟩
      · simp only [prioSelectProcess, if_neg h]
        rw [List.head?_eq_none_iff, insertionSort_eq_nil_iff]
      · intro p hp
        simp only [prioSelectProcess, if_neg h] at hp
        exact head_insertionSort_mem _ _ _ hp
      · simp only [prioSelectProcess, if_neg h]
        exact List.perm_insertionSort _ _

/-- More than 60% as the claim states it versus the 3/5 ratio threshold the
code compares against. -/
theorem pct_gt_iff (c n : ℚ) : 100 * c / n > 60 ↔ c / n > 3/5 := by
  rw [mul_div_assoc]
  constructor <;> intro h <;> linarith

/-- The code's decision matrix coincides with the claim's fixed table on
every (load, workload) pair. -/
theorem selectBest_eq_table (s : SystemState) (w : WorkloadCharacteristic) :
    selectBestAlgorithm s w = claimPolicyTable s w := by
  cases s <;> cases w <;> rfl

/-- C4: the Adaptive scheduler's algorithm choice is a pure function of the
ready queue and the core count: the code's load classification, workload
classification and decision matrix agree with the claim's thresholds
(load ratio < 1.0 / < 3.0, more than 60% CPU- or IO-bound, average remaining
time < 10.0 / > 50.0, MIXED default) and fixed policy table on all inputs. -/
theorem adaptive_choice_matches_table (numCores : ℕ) (ready : List Process) :
    analyzeSystemState numCores ready = claimSystemLoad numCores ready.length ∧
    analyzeWorkload ready = claimWorkload ready ∧
    selectBestAlgorithm (analyzeSystemState numCores ready) (analyzeWorkload ready)
      = claimPolicyTable (claimSystemLoad numCores ready.length) (claimWorkload ready) := by
  have h1 : analyzeSystemState numCores ready = claimSystemLoad numCores ready.length := rfl
  have h2 : analyzeWorkload ready = claimWorkload ready := by
    by_cases he : ready = []
    · simp [analyzeWorkload, claimWorkload, he]
    · simp only [analyzeWorkload, claimWorkload, if_neg he, pct_gt_iff]
  refine ⟨h1, h2, ?_⟩
  rw [h1, h2]
  exact selectBest_eq_table _ _

/-- Updating a key and looking it up yields the new value. -/
theorem lookupA_setA_self {β : Type} (l : List (ℕ × β)) (k : ℕ) (v : β) :
    lookupA (setA l k v) k = some v := by
  induction l with
  | nil => simp [setA, lookupA]
  | cons kv t ih =>
      by_cases hk : kv.1 = k
      · simp [setA, lookupA, hk]
      · simp [setA, lookupA, hk, ih]

/-- Deleting a key removes its binding. -/
theorem lookupA_eraseA_self {β : Type} (l : List (ℕ × β)) (k : ℕ) :
    lookupA (eraseA l k) k = none := by
  induction l with
  | nil => simp [eraseA, lookupA]
  | cons kv t ih =>
      by_cases hk : kv.1 = k
      · simp [eraseA, hk, ih]
      · simp [eraseA, lookupA, hk, ih]

/-- C9 (amended): when a process bound to core `c` completes,
`LoadBalancingScheduler.on_process_completion` subtracts the process's
original burst time from that core's recorded load (floored at 0) and removes
the assignment entry.  The first half of the original claim is false: the
recorded `core_loads` are only updated on binding, stealing and completion,
so while a bound process executes they do not track the sum of current
remaining times (see the counterexample). -/
theorem lb_on_completion_updates (s : LBState) (p : Process) (c : ℕ)
    (h : lookupA s.processAssignments p.pid = some c) :
    lookupA (lbOnProcessCompletion s p).processAssignments p.pid = none ∧
    lookupA (lbOnProcessCompletion s p).coreLoads c
      = some (max 0 ((lookupA s.coreLoads c).getD 0 - p.burstTime)) ∧
    (lbOnProcessCompletion s p).rebalanceThreshold = s.rebalanceThreshold := by
  simp only [lbOnProcessCompletion, h]
  exact ⟨lookupA_eraseA_self _ _, lookupA_setA_self _ _ _, trivial⟩

/-- The sum of the remaining times of the processes currently bound to core
`c` according to the scheduler's assignment map — the quantity the original
claim says `core_loads[c]` stays equal to. -/
def lbBoundSum (procs : List Process) (s : LBState) (c : ℕ) : ℚ :=
  ((procs.filter (fun p => lookupA s.processAssignments p.pid = some c)).map
    Process.remainingTime).sum

/-- A pristine process with burst 10 used in the load-balancing scenario. -/
def lbPr : Process := mkProcess 0 0 10

/-- The selection that binds `lbPr` to core 0 from a fresh Load Balancing
scheduler state (the unassigned-process branch of `select_process`). -/
def lbAfterSelect : Option Process × LBState :=
  lbSelectProcess (mkLBState) (mkCore 0) [lbPr]

/-- A load-balancing state in which process 5 (burst 10) is bound to core 0
whose recorded load is 10, used to witness the completion bookkeeping. -/
def lbDoneState : LBState :=
  { rebalanceThreshold := 3/10, coreLoads := [(0, 10)], processAssignments := [(5, 0)] }

section LBConcrete

attribute [local semireducible] Rat.sub Rat.add Rat.mul Rat.inv

/-- Counterexample for C9: binding `lbPr` records `core_loads[0] = 10`; after
the engine executes the still-bound process for the Load Balancing quantum 5
(as a one-core run does at time 0), its remaining time is 5 while
`core_loads[0]` is still 10, so `core_loads[0]` is not equal to the sum of
remaining times of the processes bound to core 0. -/
theorem lb_core_loads_stale_counterexample :
    lbAfterSelect.1 = some lbPr ∧
    lookupA lbAfterSelect.2.processAssignments 0 = some 0 ∧
    lookupA lbAfterSelect.2.coreLoads 0 = some 10 ∧
    (lbPr.execute 5 0 0).2.remainingTime = 5 ∧
    lbBoundSum [(lbPr.execute 5 0 0).2] lbAfterSelect.2 0 = 5 ∧
    lookupA lbAfterSelect.2.coreLoads 0
      ≠ some (lbBoundSum [(lbPr.execute 5 0 0).2] lbAfterSelect.2 0) := by
  decide

/-- Witness for C9: the completion bookkeeping evaluated on `lbDoneState`. -/
theorem lb_on_completion_updates_witness :
    lookupA lbDoneState.processAssignments 5 = some 0 ∧
    (lookupA (lbOnProcessCompletion lbDoneState (mkProcess 5 0 10)).processAssignments 5
        = none ∧
    lookupA (lbOnProcessCompletion lbDoneState (mkProcess 5 0 10)).coreLoads 0
      = some (max 0 ((lookupA lbDoneState.coreLoads 0).getD 0
          - (mkProcess 5 0 10).burstTime)) ∧
    (lbOnProcessCompletion lbDoneState (mkProcess 5 0 10)).rebalanceThreshold
      = lbDoneState.rebalanceThreshold) :=
  ⟨by decide, lb_on_completion_updates lbDoneState (mkProcess 5 0 10) 0 (by decide)⟩

end LBConcrete

/-- Three cores whose busy times over a 100ms run give the utilization
percentages 0, 10 and 20. -/
def coresUneven : List CPUCore :=
  [{ mkCore 0 with totalBusyTime := 0 },
   { mkCore 1 with totalBusyTime := 10 },
   { mkCore 2 with totalBusyTime := 20 }]

section MetricsConcrete

attribute [local semireducible] Rat.sub Rat.add Rat.mul Rat.inv

/-- The utilization list of `coresUneven` over 100ms. -/
theorem utils_uneven : coreUtilizations coresUneven 100 = [0, 10, 20] := by decide

/-- The sample variance of `[0, 10, 20]` is 100 (sample stdev 10). -/
theorem sampleVariance_uneven : sampleVariance [(0:ℚ), 10, 20] = 100 := by decide

/-- Two equal utilizations have zero sample variance. -/
theorem sampleVariance_pair_zero : sampleVariance [(0:ℚ), 0] = 0 := by decide

end MetricsConcrete

/-- `statistics.stdev` is characterised uniquely by `IsSampleStdDev`. -/
theorem isSampleStdDev_unique (xs : List ℚ) {s t : ℝ}
    (hs : IsSampleStdDev xs s) (ht : IsSampleStdDev xs t) : s = t := by
  have hsq : s ^ 2 = t ^ 2 := by rw [hs.2, ht.2]
  calc s = Real.sqrt (s ^ 2) := (Real.sqrt_sq hs.1).symm
    _ = Real.sqrt (t ^ 2) := by rw [hsq]
    _ = t := Real.sqrt_sq ht.1

/-- A list of pairwise equal values has zero sample variance. -/
theorem sampleVariance_of_all_eq (xs : List ℚ)
    (h : ∀ x ∈ xs, ∀ y ∈ xs, x = y) : sampleVariance xs = 0 := by
  cases xs with
  | nil => simp [sampleVariance]
  | cons a t =>
      have hall : ∀ b ∈ a :: t, b = a := fun b hb => h b hb a (List.mem_cons_self a t)
      have hn : ((t.length : ℚ) + 1) ≠ 0 := by positivity
      have hcancel : ((t.length : ℚ) + 1) * a / ((t.length : ℚ) + 1) = a :=
        mul_div_cancel_left₀ a hn
      have hrep : a :: t = List.replicate (a :: t).length a :=
        List.eq_replicate_of_mem hall
      rw [sampleVariance]
      conv_lhs => rw [hrep]
      simp [List.sum_replicate, List.map_replicate, nsmul_eq_mul, hcancel, sub_self]

/-- The computed load-balance score always lies in [0, 1]. -/
theorem scoreRel_bounds (cores : List CPUCore) (totalTime : ℚ) (score : ℝ)
    (h : loadBalanceScoreRel cores totalTime score) : 0 ≤ score ∧ score ≤ 1 := by
  by_cases hl : 1 < (coreUtilizations cores totalTime).length
  · rw [loadBalanceScoreRel, if_pos hl] at h
    obtain ⟨s, hs, rfl⟩ := h
    refine ⟨le_max_left _ _, max_le (by norm_num) ?_⟩
    have : 0 ≤ s / 100 := div_nonneg hs.1 (by norm_num)
    linarith
  · rw [loadBalanceScoreRel, if_neg hl] at h
    rw [h]
    norm_num

/-- With zero utilization variance the computed score is exactly 1. -/
theorem scoreRel_eq_one_of_var_zero (cores : List CPUCore) (totalTime : ℚ) (score : ℝ)
    (hvar : sampleVariance (coreUtilizations cores totalTime) = 0)
    (h : loadBalanceScoreRel cores totalTime score) : score = 1 := by
  by_cases hl : 1 < (coreUtilizations cores totalTime).length
  · rw [loadBalanceScoreRel, if_pos hl] at h
    obtain ⟨s, hs, rfl⟩ := h
    have hs0 : s ^ 2 = 0 := by rw [hs.2, hvar]; norm_num
    rw [sq_eq_zero_iff.mp hs0]
    norm_num
  · rw [loadBalanceScoreRel, if_neg hl] at h
    exact h

/-- The sample standard deviation of `[0, 10, 20]` is 10. -/
theorem isStdDev_uneven : IsSampleStdDev [(0:ℚ), 10, 20] 10 := by
  constructor
  · norm_num
  · rw [sampleVariance_uneven]; norm_num

/-- The code's score on `coresUneven` over 100ms is `1 - 10/100 = 0.9`. -/
theorem lbScore_uneven : loadBalanceScoreRel coresUneven 100 (9/10) := by
  rw [loadBalanceScoreRel, utils_uneven]
  rw [if_pos (by norm_num : 1 < ([(0:ℚ), 10, 20]).length)]
  refine ⟨10, isStdDev_uneven, ?_⟩
  have h1 : (1:ℝ) - 10/100 = 9/10 := by norm_num
  rw [h1, max_eq_right (by norm_num : (0:ℝ) ≤ 9/10)]

/-- Counterexample for C5: on three cores with utilizations 0, 10 and 20 over
a 100ms run, the code computes the score `1 - stdev/100 = 0.9`, while the
claim's formula `1 - stdev/mean` (clamped to [0,1]) yields
`max 0 (min 1 (1 - 10/10)) = 0`, so the code's score does not satisfy the
claimed coefficient-of-variation definition. -/
theorem load_balance_score_not_cv :
    loadBalanceScoreRel coresUneven 100 (9/10) ∧
    ¬ claimLoadBalanceScoreRel coresUneven 100 (9/10) := by
  refine ⟨lbScore_uneven, ?_⟩
  intro h
  simp only [claimLoadBalanceScoreRel, utils_uneven] at h
  rw [if_neg (by rw [sampleVariance_uneven]; norm_num)] at h
  obtain ⟨s, hs, heq⟩ := h
  have hs10 : s = 10 := isSampleStdDev_unique _ hs isStdDev_uneven
  have hmean : (([(0:ℚ), 10, 20]).sum / (([(0:ℚ), 10, 20]).length : ℚ)) = 10 := by
    norm_num [List.sum_cons]
  rw [hs10, hmean] at heq
  norm_num at heq

/-- C5 (amended): the load-balance score in the metrics snapshot equals
`max(0, 1 - stdev/100)` where stdev is the sample standard deviation of the
per-core utilization percentages (not the coefficient of variation); it is
1.0 when there is only one core or the utilizations have zero variance, and
it always lies in [0, 1]. -/
theorem load_balance_score_formula :
    (∀ (cores : List CPUCore) (totalTime : ℚ) (score s : ℝ),
        1 < (coreUtilizations cores totalTime).length →
        IsSampleStdDev (coreUtilizations cores totalTime) s →
        loadBalanceScoreRel cores totalTime score →
        score = max 0 (1 - s / 100)) ∧
    (∀ (cores : List CPUCore) (totalTime : ℚ) (score : ℝ),
        (coreUtilizations cores totalTime).length ≤ 1 →
        loadBalanceScoreRel cores totalTime score → score = 1) ∧
    (∀ (cores : List CPUCore) (totalTime : ℚ) (score : ℝ),
        sampleVariance (coreUtilizations cores totalTime) = 0 →
        loadBalanceScoreRel cores totalTime score → score = 1) ∧
    (∀ (cores : List CPUCore) (totalTime : ℚ) (score : ℝ),
        loadBalanceScoreRel cores totalTime score → 0 ≤ score ∧ score ≤ 1) := by
  refine ⟨?_, ?_, ?_, ?_⟩
  · intro cores totalTime score s hl hs h
    rw [loadBalanceScoreRel, if_pos hl] at h
    obtain ⟨s', hs', rfl⟩ := h
    rw [isSampleStdDev_unique _ hs' hs]
  · intro cores totalTime score hl h
    rw [loadBalanceScoreRel, if_neg (not_lt.mpr hl)] at h
    exact h
  · intro cores totalTime score hvar h
    exact scoreRel_eq_one_of_var_zero cores totalTime score hvar h
  · intro cores totalTime score h
    exact scoreRel_bounds cores totalTime score h

/-- Witness for C5: the amended formula evaluated on `coresUneven`. -/
theorem load_balance_score_formula_witness :
    (1 < (coreUtilizations coresUneven 100).length ∧
      IsSampleStdDev (coreUtilizations coresUneven 100) 10 ∧
      loadBalanceScoreRel coresUneven 100 (9/10)) ∧
    (9/10 : ℝ) = max 0 (1 - 10 / 100) := by
  have hl : 1 < (coreUtilizations coresUneven 100).length := by
    rw [utils_uneven]; norm_num
  have hs : IsSampleStdDev (coreUtilizations coresUneven 100) 10 := by
    rw [utils_uneven]; exact isStdDev_uneven
  exact ⟨⟨hl, hs, lbScore_uneven⟩,
    load_balance_score_formula.1 coresUneven 100 (9/10) 10 hl hs lbScore_uneven⟩

/-- C6 (amended): the computed load-balance score always lies in [0, 1], and
it equals 1.0 whenever at least one process completed and all per-core
utilizations are numerically equal (including the single-core case).  The
original claim's equality fails for runs with no completed process, where the
early return sets the score to 0 even though all utilizations are equal (see
the counterexample). -/
theorem metrics_score_range (processes : List Process) (cores : List CPUCore)
    (totalTime : ℚ) (score : ℝ)
    (h : metricsLoadBalanceScoreRel processes cores totalTime score) :
    (0 ≤ score ∧ score ≤ 1) ∧
    (processes.filter Process.isCompleted ≠ [] →
      (∀ x ∈ coreUtilizations cores totalTime,
        ∀ y ∈ coreUtilizations cores totalTime, x = y) →
      score = 1) := by
  by_cases hc : processes.filter Process.isCompleted = []
  · rw [metricsLoadBalanceScoreRel, if_pos hc] at h
    rw [h]
    exact ⟨by norm_num, fun hne _ => absurd hc hne⟩
  · rw [metricsLoadBalanceScoreRel, if_neg hc] at h
    refine ⟨scoreRel_bounds cores totalTime score h, fun _ hall => ?_⟩
    exact scoreRel_eq_one_of_var_zero cores totalTime score
      (sampleVariance_of_all_eq _ hall) h

section MoreConcrete

attribute [local semireducible] Rat.sub Rat.add Rat.mul Rat.inv

/-- Two idle cores over a 5ms interval both have utilization 0. -/
theorem utilsPair : coreUtilizations [mkCore 0, mkCore 1] 5 = [0, 0] := by decide

/-- A metrics snapshot with one completed process and equal (zero)
utilizations on both cores carries score 1. -/
theorem metricsRel_done :
    metricsLoadBalanceScoreRel [donePr] [mkCore 0, mkCore 1] 5 1 := by
  rw [metricsLoadBalanceScoreRel, if_neg (by decide)]
  rw [loadBalanceScoreRel, utilsPair, if_pos (by norm_num : 1 < ([(0:ℚ), 0]).length)]
  refine ⟨0, ⟨le_refl 0, ?_⟩, ?_⟩
  · rw [sampleVariance_pair_zero]; norm_num
  · norm_num

/-- Witness for C6: the amended property evaluated on a run with one
completed process and equal per-core utilizations. -/
theorem metrics_score_range_witness :
    metricsLoadBalanceScoreRel [donePr] [mkCore 0, mkCore 1] 5 1 ∧
    (((0:ℝ) ≤ 1 ∧ (1:ℝ) ≤ 1) ∧
    ([donePr].filter Process.isCompleted ≠ [] →
      (∀ x ∈ coreUtilizations [mkCore 0, mkCore 1] 5,
        ∀ y ∈ coreUtilizations [mkCore 0, mkCore 1] 5, x = y) →
      (1:ℝ) = 1)) :=
  ⟨metricsRel_done, metrics_score_range [donePr] [mkCore 0, mkCore 1] 5 1 metricsRel_done⟩

/-- Counterexample for C6: running `rrSim` with `max_time=0` terminates with
no completed process; the metrics early-return then records score 0 although
all per-core utilizations are equal (both 0), contradicting the claim that
equal utilizations always give score 1. -/
theorem metrics_score_empty_run :
    runTerminated rrRunBounded = true ∧
    (runProcs rrRunBounded).filter Process.isCompleted = [] ∧
    metricsLoadBalanceScoreRel (runProcs rrRunBounded) (runCores rrRunBounded)
      (runTime rrRunBounded) 0 ∧
    (∀ x ∈ coreUtilizations (runCores rrRunBounded) (runTime rrRunBounded),
      ∀ y ∈ coreUtilizations (runCores rrRunBounded) (runTime rrRunBounded), x = y) ∧
    (0 : ℝ) ≠ 1 := by
  have hfilter : (runProcs rrRunBounded).filter Process.isCompleted = [] := by decide
  have hutils :
      coreUtilizations (runCores rrRunBounded) (runTime rrRunBounded) = [0, 0] := by
    decide
  refine ⟨by decide, hfilter, ?_, ?_, by norm_num⟩
  · rw [metricsLoadBalanceScoreRel, if_pos hfilter]
  · rw [hutils]
    intro x hx y hy
    simp at hx hy
    rw [hx, hy]

end MoreConcrete

section SelectConcrete

attribute [local semireducible] Rat.sub Rat.add Rat.mul Rat.inv

/-- Witness for C8: the FCFS selection contract evaluated on a concrete
two-element ready queue, and the Load Balancing membership discharged on the
concrete selection that binds `lbPr`. -/
theorem select_preserves_queue_witness :
    (((fcfsSelectProcess [mkProcess 1 1 5, mkProcess 0 0 3]).1 = none ↔
      [mkProcess 1 1 5, mkProcess 0 0 3] = []) ∧
    (∀ p, (fcfsSelectProcess [mkProcess 1 1 5, mkProcess 0 0 3]).1 = some p →
      p ∈ [mkProcess 1 1 5, mkProcess 0 0 3]) ∧
    List.Perm (fcfsSelectProcess [mkProcess 1 1 5, mkProcess 0 0 3]).2
      [mkProcess 1 1 5, mkProcess 0 0 3]) ∧
    ((lbSelectProcess mkLBState (mkCore 0) [lbPr]).1 = some lbPr ∧ lbPr ∈ [lbPr]) :=
  ⟨select_preserves_queue.1 [mkProcess 1 1 5, mkProcess 0 0 3],
    by decide,
    select_preserves_queue.2.2.2 mkLBState (mkCore 0) [lbPr] lbPr (by decide)⟩

end SelectConcrete

end SchedSim
